import Mathlib

/-!
Shallow embedding of the course-platform backend's two core subsystems:

* the course video-ordering repository (`AddVideoToCourse`, `ReorderVideos`,
  `RemoveVideoFromCourse`, `GetVideosInOrder` in
  `internal/repository/course_repository.go`), and
* the Stripe webhook reconciler (`HandleStripeWebhook` in
  `internal/handlers/payment_handlers.go` together with
  `PaymentRepository.Create` / `PaymentRepository.UpdateSubscription`).

Modelling conventions:
* Mongo `primitive.ObjectID` values are opaque identifiers, modelled as `Nat`;
  `ObjectID.Hex` is injective, so equality of hex strings is equality of ids.
* `time.Time` instants are modelled as `Nat` (the handlers only ever store
  `time.Now()`, passed in as an explicit `now` argument); `*time.Time`
  pointers as `Option Nat`.
* Go `int`/`int64` are modelled as `Int`.
* A Mongo collection is the list of its documents; `FindOne {_id: id}` is
  `List.find?` on the id field, and `UpdateOne {_id: id} {$set: ...}`
  rewrites the first document whose id matches (Mongo updates at most one).
* Functions that return a Go `error` are modelled with `Except`: an `Except.error`
  result means the repository performed no write, so the stored state is
  unchanged on every error path.
-/

namespace CourseSite

/-- Opaque document identifier (`primitive.ObjectID`). -/
abbrev ObjectID := Nat

/-- `models.Course`: scalar payload fields plus the ordered `video_order`
array of video ids. -/
structure Course where
  id : ObjectID
  title : String
  subTitle : String
  description : String
  thumbnailURL : String
  videoOrder : List ObjectID
  isPaid : Bool
  skills : List String
  author : String
  createdBy : ObjectID
  createdAt : Nat
  updatedAt : Nat
deriving Repr, DecidableEq

/-- `models.Video`. -/
structure Video where
  id : ObjectID
  title : String
  description : String
  url : String
  thumbnail : String
  duration : Int
  isPaid : Bool
  courseID : ObjectID
  createdAt : Nat
deriving Repr, DecidableEq

/-- The error values the course repository can return (each constructor
stands for one literal `errors.New` / `fmt.Errorf` message in
`course_repository.go`). -/
inductive CourseRepoError
  /-- "course not found" -/
  | notFound
  /-- "invalid position" -/
  | invalidPosition
  /-- "invalid video ID in new order" -/
  | invalidVideoReference
  /-- "Course not having any videos" -/
  | emptyList
  /-- "video not found: %s" (the dangling id is carried) -/
  | danglingVideo (videoID : ObjectID)
deriving Repr, DecidableEq

/-- The courses collection. -/
abbrev CourseStore := List Course

/-- The videos collection. -/
abbrev VideoStore := List Video

/-- `CourseRepository.GetByID`: `FindOne {_id: id}`. -/
def getByID (store : CourseStore) (id : ObjectID) : Option Course :=
  store.find? (fun c => c.id == id)

/-- `VideoRepository.GetByID`: `FindOne {_id: id}` on the videos collection. -/
def videoGetByID (videos : VideoStore) (id : ObjectID) : Option Video :=
  videos.find? (fun v => v.id == id)

/-- `UpdateOne {_id: id} {$set: {video_order: order, updated_at: now}}`:
rewrites the first course whose id matches, leaves everything else alone. -/
def setVideoOrder (store : CourseStore) (id : ObjectID) (order : List ObjectID)
    (now : Nat) : CourseStore :=
  match store with
  | [] => []
  | c :: rest =>
    if c.id == id then { c with videoOrder := order, updatedAt := now } :: rest
    else c :: setVideoOrder rest id order now

/-- `CourseRepository.AddVideoToCourse` (course_repository.go:121-159):
fetch the course, validate `position` against the current order, build the
new array with the two `copy` calls (prefix, inserted id, suffix), write it
back. -/
def AddVideoToCourse (store : CourseStore) (courseID videoID : ObjectID)
    (position : Int) (now : Nat) : Except CourseRepoError CourseStore :=
  match getByID store courseID with
  | none => .error .notFound
  | some course =>
    let currentOrder := course.videoOrder
    if position < 0 ∨ position > (currentOrder.length : Int) then
      .error .invalidPosition
    else
      let newOrder :=
        currentOrder.take position.toNat ++ videoID :: currentOrder.drop position.toNat
      .ok (setVideoOrder store courseID newOrder now)

/-- `CourseRepository.ReorderVideos` (course_repository.go:162-199):
fetch the course, check every id of `newOrder` against the set of ids in the
current order (the Go code builds a map keyed by `ObjectID.Hex`, which is an
injective encoding, so this is plain membership), then write `newOrder`
back verbatim. -/
def ReorderVideos (store : CourseStore) (courseID : ObjectID)
    (newOrder : List ObjectID) (now : Nat) : Except CourseRepoError CourseStore :=
  match getByID store courseID with
  | none => .error .notFound
  | some course =>
    let currentOrder := course.videoOrder
    if ∀ v ∈ newOrder, v ∈ currentOrder then
      .ok (setVideoOrder store courseID newOrder now)
    else
      .error .invalidVideoReference

/-- `CourseRepository.RemoveVideoFromCourse` (course_repository.go:202-243):
fetch the course, error out on an empty order, special-case the singleton
list whose only element is the removed id (the Go code sets `newOrder = nil`
there), otherwise keep every element different from `videoID`, and write the
result back. -/
def RemoveVideoFromCourse (store : CourseStore) (courseID videoID : ObjectID)
    (now : Nat) : Except CourseRepoError CourseStore :=
  match getByID store courseID with
  | none => .error .notFound
  | some course =>
    let currentOrder := course.videoOrder
    if currentOrder.length = 0 then
      .error .emptyList
    else
      let newOrder :=
        if currentOrder.length = 1 ∧ currentOrder.head? = some videoID then
          []
        else
          currentOrder.filter (fun v => !(v == videoID))
      .ok (setVideoOrder store courseID newOrder now)

/-- The lookup loop of `GetVideosInOrder`: one `VideoRepository.GetByID` per
id, in order; the first id that resolves to no stored video aborts the whole
computation. -/
def resolveVideos (videos : VideoStore) : List ObjectID → Except CourseRepoError (List Video)
  | [] => .ok []
  | id :: rest =>
    match videoGetByID videos id with
    | none => .error (.danglingVideo id)
    | some v =>
      match resolveVideos videos rest with
      | .error e => .error e
      | .ok vs => .ok (v :: vs)

/-- `CourseRepository.GetVideosInOrder` (course_repository.go:246-276):
fetch the course, return `[]` for an empty order, otherwise resolve every id
of `video_order` through the videos collection, in order. -/
def GetVideosInOrder (store : CourseStore) (videos : VideoStore)
    (courseID : ObjectID) : Except CourseRepoError (List Video) :=
  match getByID store courseID with
  | none => .error .notFound
  | some course =>
    if course.videoOrder.length = 0 then
      .ok []
    else
      resolveVideos videos course.videoOrder

/-! ## The Stripe webhook reconciler

`HandleStripeWebhook` after body read, configuration check and signature
verification (all upstream of the logic under specification): the
`switch event.Type` dispatch, together with the two repository operations
it calls, `PaymentRepository.Create` and
`PaymentRepository.UpdateSubscription`. -/

/-- `models.Subscription`: every field of the Go struct. `Amount` is a Go
`float64`; only its zero value ever flows through the reconciler, so it is
modelled as `Int`. `time.Time` fields hold Unix instants modelled as `Int`,
`*time.Time` pointers as `Option Int`. -/
structure Subscription where
  id : ObjectID
  userID : ObjectID
  productID : ObjectID
  status : String
  plan : String
  region : String
  currency : String
  amount : Int
  currentPeriodStart : Int
  currentPeriodEnd : Int
  cancelAtPeriodEnd : Bool
  canceledAt : Option Int
  trialStart : Option Int
  trialEnd : Option Int
  paymentMethodID : String
  customerID : String
  subscriptionID : String
  lastPaymentStatus : String
  lastPaymentDate : Option Int
  nextBillingDate : Option Int
  autoRenew : Bool
  createdAt : Int
  updatedAt : Int
deriving Repr, DecidableEq

/-- The zero value of `models.Subscription`: what every field of a Go
composite literal `models.Subscription{...}` holds when the literal does not
list it. -/
def zeroSubscription : Subscription where
  id := 0
  userID := 0
  productID := 0
  status := ""
  plan := ""
  region := ""
  currency := ""
  amount := 0
  currentPeriodStart := 0
  currentPeriodEnd := 0
  cancelAtPeriodEnd := false
  canceledAt := none
  trialStart := none
  trialEnd := none
  paymentMethodID := ""
  customerID := ""
  subscriptionID := ""
  lastPaymentStatus := ""
  lastPaymentDate := none
  nextBillingDate := none
  autoRenew := false
  createdAt := 0
  updatedAt := 0

/-- `models.User`: the user document embeds its subscription document in
the `subscription` field. -/
structure User where
  id : ObjectID
  email : String
  name : String
  passwordHash : String
  role : String
  isVerified : Bool
  subscription : Subscription
  blocked : Bool
  createdAt : Nat
  updatedAt : Nat
deriving Repr, DecidableEq

/-- `models.Payment`. -/
structure Payment where
  id : ObjectID
  userID : ObjectID
  gateway : String
  transactionID : String
  amount : Int
  currency : String
  region : String
  status : String
  timestamp : Nat
deriving Repr, DecidableEq

/-- `stripe.PriceRecurring`: the recurring-billing description of a price. -/
structure StripeRecurring where
  interval : String
deriving Repr, DecidableEq

/-- `stripe.Price` (the field the handler reads). -/
structure StripePrice where
  recurring : StripeRecurring
deriving Repr, DecidableEq

/-- `stripe.SubscriptionItem` (the field the handler reads). -/
structure StripeSubscriptionItem where
  price : StripePrice
deriving Repr, DecidableEq

/-- The part of a parsed `stripe.Subscription` payload the handler reads.
`userID` models the result of
`primitive.ObjectIDFromHex(sub.Customer.Metadata["user_id"])`: `none` when
the metadata entry is missing or is not a valid ObjectID hex string.
`items` is the billing-item list `sub.Items.Data`; `currentPeriodEnd` is
the provider's Unix timestamp (`int64`). -/
structure StripeSubscription where
  userID : Option ObjectID
  status : String
  items : List StripeSubscriptionItem
  currentPeriodEnd : Int
deriving Repr, DecidableEq

/-- The part of a parsed `stripe.CheckoutSession` payload the handler
reads; `userID` as in `StripeSubscription`. -/
structure StripeCheckoutSession where
  userID : Option ObjectID
  sessionID : String
  amountTotal : Int
  currency : String
deriving Repr, DecidableEq

/-- A pre-verified webhook event: `event.Type` with its parsed payload.
`otherEvent` covers every type the `switch` has no case for (the handler
acknowledges it without touching the store). -/
inductive StripeEvent
  | checkoutSessionCompleted (session : StripeCheckoutSession)
  | customerSubscriptionUpdated (sub : StripeSubscription)
  | customerSubscriptionDeleted (sub : StripeSubscription)
  | otherEvent
deriving Repr, DecidableEq

/-- The store state the webhook handler can touch: the users collection
(each user embedding its subscription) and the payments collection. -/
structure WebhookState where
  users : List User
  payments : List Payment
deriving Repr, DecidableEq

/-- `PaymentRepository.Create` (payment_repository.go:28-38): stamps the
record with `time.Now()` and `InsertOne`s it (the store-generated `_id` is
left as passed). -/
def paymentCreate (payments : List Payment) (p : Payment) (now : Nat) :
    List Payment :=
  payments ++ [{ p with timestamp := now }]

/-- `PaymentRepository.UpdateSubscription` (payment_repository.go:163-177):
`UpdateOne {_id: userID} {$set: {subscription: s, updated_at: now}}` on the
users collection — the whole embedded subscription document is replaced by
`s`. Rewrites the first matching user (Mongo updates at most one). -/
def updateSubscription (users : List User) (userID : ObjectID)
    (s : Subscription) (now : Nat) : List User :=
  match users with
  | [] => []
  | u :: rest =>
    if u.id == userID then { u with subscription := s, updatedAt := now } :: rest
    else u :: updateSubscription rest userID s now

/-- `FindOne {_id: id}` on the users collection (how stored subscription
state is read back). -/
def userGetByID (users : List User) (id : ObjectID) : Option User :=
  users.find? (fun u => u.id == id)

/-- The failure modes of the webhook dispatch. `emptyItems` stands for the
access `sub.Items.Data[0]` on an empty billing-item list — in Go an
out-of-bounds slice index; the total embedding makes that index lookup
return `none` and the handler abort there. -/
inductive WebhookError
  /-- "Invalid user ID in metadata" -/
  | invalidUserID
  /-- `sub.Items.Data[0]` with `len(sub.Items.Data) == 0` -/
  | emptyItems
deriving Repr, DecidableEq

/-- The `switch event.Type` dispatch of `HandleStripeWebhook`. -/
def handleStripeWebhook (st : WebhookState) (event : StripeEvent)
    (now : Nat) : Except WebhookError WebhookState :=
  match event with
  | .checkoutSessionCompleted session =>
    match session.userID with
    | none => .error .invalidUserID
    | some userID =>
      let payment : Payment :=
        { id := 0, userID := userID, gateway := "stripe",
          transactionID := session.sessionID, amount := session.amountTotal,
          currency := session.currency, region := "", status := "completed",
          timestamp := now }
      .ok { st with payments := paymentCreate st.payments payment now }
  | .customerSubscriptionUpdated sub =>
    match sub.userID with
    | none => .error .invalidUserID
    | some userID =>
      match sub.items[0]? with
      | none => .error .emptyItems
      | some item =>
        let subscription : Subscription :=
          { zeroSubscription with
              status := sub.status,
              plan := item.price.recurring.interval,
              currentPeriodEnd := sub.currentPeriodEnd }
        .ok { st with users := updateSubscription st.users userID subscription now }
  | .customerSubscriptionDeleted sub =>
    match sub.userID with
    | none => .error .invalidUserID
    | some userID =>
      match sub.items[0]? with
      | none => .error .emptyItems
      | some item =>
        let subscription : Subscription :=
          { zeroSubscription with
              status := "canceled",
              plan := item.price.recurring.interval,
              currentPeriodEnd := sub.currentPeriodEnd }
        .ok { st with users := updateSubscription st.users userID subscription now }
  | .otherEvent => .ok st

/-! ### Concrete instances used by witnesses and counterexamples -/

/-- A concrete course used to instantiate the proved specifications. -/
def demoCourse : Course where
  id := 1
  title := "demo"
  subTitle := ""
  description := ""
  thumbnailURL := ""
  videoOrder := [10, 20]
  isPaid := false
  skills := []
  author := ""
  createdBy := 0
  createdAt := 0
  updatedAt := 0

/-- Concrete stored videos for the C4 witness: the records behind the ids of
`demoCourse.videoOrder`. -/
def demoVideos : VideoStore :=
  [{ id := 10, title := "a", description := "", url := "", thumbnail := "",
     duration := 0, isPaid := false, courseID := 1, createdAt := 0 },
   { id := 20, title := "b", description := "", url := "", thumbnail := "",
     duration := 0, isPaid := false, courseID := 1, createdAt := 0 }]

/-- A user with the zero subscription, target of the demo events. -/
def demoUser : User where
  id := 7
  email := "u@example.com"
  name := "u"
  passwordHash := ""
  role := "user"
  isVerified := true
  subscription := zeroSubscription
  blocked := false
  createdAt := 0
  updatedAt := 0

/-- A provider subscription payload resolving to user 7 with one monthly
billing item. -/
def demoStripeSub : StripeSubscription where
  userID := some 7
  status := "active"
  items := [{ price := { recurring := { interval := "month" } } }]
  currentPeriodEnd := 100

/-- The store before any demo event. -/
def demoState : WebhookState where
  users := [demoUser]
  payments := []

/-- The store after `demoStripeSub` was applied once at instant 3. -/
def demoState1 : WebhookState where
  users := [{ demoUser with
    subscription := { zeroSubscription with
      status := "active", plan := "month", currentPeriodEnd := 100 },
    updatedAt := 3 }]
  payments := []

/-- The payment record the checkout branch builds from the session payload
(`models.Payment{...}` literal of the handler; unset fields hold their zero
values). -/
def checkoutPayment (session : StripeCheckoutSession) (uid : ObjectID)
    (now : Nat) : Payment :=
  { id := 0,
    userID := uid,
    gateway := "stripe",
    transactionID := session.sessionID,
    amount := session.amountTotal,
    currency := session.currency,
    region := "",
    status := "completed",
    timestamp := now }

/-- A checkout session payload resolving to user 7, amount 1999, currency
"usd". -/
def demoSession : StripeCheckoutSession where
  userID := some 7
  sessionID := "cs_1"
  amountTotal := 1999
  currency := "usd"

/-- A stored subscription carrying provider-linkage data (the fields the
claim says the transition leaves unchanged). -/
def linkedSubscription : Subscription :=
  { zeroSubscription with
      status := "active",
      plan := "month",
      paymentMethodID := "pm_1",
      customerID := "cus_1",
      subscriptionID := "sub_1",
      cancelAtPeriodEnd := true,
      autoRenew := true }

/-- User 7 holding `linkedSubscription`. -/
def linkedUser : User :=
  { demoUser with subscription := linkedSubscription }

/-- A one-user store whose subscription carries provider-linkage data. -/
def linkedState : WebhookState where
  users := [linkedUser]
  payments := []

/-- A provider payload whose subscription status is "past_due" (a value the
Stripe API emits and the handler copies verbatim). -/
def pastDueStripeSub : StripeSubscription where
  userID := some 7
  status := "past_due"
  items := [{ price := { recurring := { interval := "month" } } }]
  currentPeriodEnd := 100

/-- A provider payload with no billing items. -/
def emptyItemsStripeSub : StripeSubscription where
  userID := some 7
  status := "active"
  items := []
  currentPeriodEnd := 100

/-! ### Helper lemmas about the store and about list surgery -/

/-- Reading the course just written: `setVideoOrder` rewrites exactly the
document that `getByID` finds. -/
theorem getByID_setVideoOrder_self (id : ObjectID) (order : List ObjectID)
    (now : Nat) :
    ∀ (store : CourseStore) (c : Course), getByID store id = some c →
      getByID (setVideoOrder store id order now) id =
        some { c with videoOrder := order, updatedAt := now } := by
  intro store
  induction store with
  | nil => intro c h; simp [getByID] at h
  | cons c0 rest ih =>
    intro c h
    by_cases h0 : c0.id = id
    · have hc : c0 = c := by
        simpa [getByID, List.find?_cons_of_pos, h0] using h
      subst hc
      simp [getByID, setVideoOrder, h0, List.find?_cons_of_pos]
    · have hne : ¬(c0.id == id) = true := by simpa using h0
      have h' : getByID rest id = some c := by
        simpa [getByID, List.find?_cons_of_neg, hne] using h
      have hrec := ih c h'
      simpa [getByID, setVideoOrder, h0, List.find?_cons_of_neg, hne] using hrec

/-- Inserting at index `t` (prefix, new element, suffix — the two `copy`
calls) lengthens the list by one. -/
theorem length_insert_take_drop {α : Type} (l : List α) (v : α) (t : Nat)
    (h : t ≤ l.length) :
    (l.take t ++ v :: l.drop t).length = l.length + 1 := by
  simp only [List.length_append, List.length_take, List.length_cons,
    List.length_drop]
  omega

/-- The inserted element sits at index `t`. -/
theorem get_insert_take_drop {α : Type} (l : List α) (v : α) (t : Nat)
    (h : t ≤ l.length) :
    (l.take t ++ v :: l.drop t)[t]? = some v := by
  have hlen : (l.take t).length = t := by
    simp [List.length_take]; omega
  rw [List.getElem?_append_right (by omega)]
  simp [hlen]

/-- Erasing index `t` undoes the insertion: every previously-present element
is still there, in its original relative order. -/
theorem eraseIdx_insert_take_drop {α : Type} (l : List α) (v : α) (t : Nat)
    (h : t ≤ l.length) :
    (l.take t ++ v :: l.drop t).eraseIdx t = l := by
  induction l generalizing t with
  | nil =>
    have ht : t = 0 := by simpa using h
    subst ht; simp
  | cons a l ih =>
    cases t with
    | zero => simp
    | succ t =>
      simp only [List.take_succ_cons, List.drop_succ_cons, List.cons_append,
        List.eraseIdx_cons_succ]
      rw [ih t (by simpa using h)]

/-! ### C1 — AddVideoToCourse / InsertAt -/

/-- C1: for an existing course with an n-element `videoOrder` and any
`position` in `[0, n]`, `AddVideoToCourse` succeeds and the stored
`videoOrder` becomes an (n+1)-element sequence with the new id at index
`position` and all previously-present ids in their original relative order
(erasing the inserted index recovers the original list exactly); for
`position` outside `[0, n]` it fails with `invalidPosition`, and for an
absent course it fails with `notFound` — on every error path no write is
performed, so the stored state is unchanged. -/
theorem insertAt_spec (store : CourseStore) (courseID videoID : ObjectID)
    (position : Int) (now : Nat) :
    (getByID store courseID = none →
      AddVideoToCourse store courseID videoID position now = .error .notFound) ∧
    (∀ course, getByID store courseID = some course →
      (0 ≤ position → position ≤ (course.videoOrder.length : Int) →
        ∃ store', AddVideoToCourse store courseID videoID position now = .ok store' ∧
          ∃ course', getByID store' courseID = some course' ∧
            course'.videoOrder.length = course.videoOrder.length + 1 ∧
            course'.videoOrder[position.toNat]? = some videoID ∧
            course'.videoOrder.eraseIdx position.toNat = course.videoOrder) ∧
      ((position < 0 ∨ (course.videoOrder.length : Int) < position) →
        AddVideoToCourse store courseID videoID position now = .error .invalidPosition)) := by
  refine ⟨fun h => by simp [AddVideoToCourse, h], fun course hc => ⟨?_, ?_⟩⟩
  · intro h0 hlen
    have hcond : ¬(position < 0 ∨ position > (course.videoOrder.length : Int)) := by
      omega
    have ht : position.toNat ≤ course.videoOrder.length := by omega
    refine ⟨setVideoOrder store courseID
      (course.videoOrder.take position.toNat ++
        videoID :: course.videoOrder.drop position.toNat) now, ?_, ?_⟩
    · simp only [AddVideoToCourse, hc]
      rw [if_neg hcond]
    · exact ⟨_, getByID_setVideoOrder_self courseID _ now store course hc,
        length_insert_take_drop _ _ _ ht, get_insert_take_drop _ _ _ ht,
        eraseIdx_insert_take_drop _ _ _ ht⟩
  · intro hbad
    have hcond : position < 0 ∨ position > (course.videoOrder.length : Int) := by
      omega
    simp only [AddVideoToCourse, hc]
    rw [if_pos hcond]

/-- C1 witness: inserting id 30 at position 1 of `[10, 20]`. -/
theorem insertAt_spec_witness :
    ∃ store', AddVideoToCourse [demoCourse] 1 30 1 5 = .ok store' ∧
      ∃ course', getByID store' 1 = some course' ∧
        course'.videoOrder.length = demoCourse.videoOrder.length + 1 ∧
        course'.videoOrder[(1 : Int).toNat]? = some 30 ∧
        course'.videoOrder.eraseIdx (1 : Int).toNat = demoCourse.videoOrder :=
  ((insertAt_spec [demoCourse] 1 30 1 5).2 demoCourse (by decide)).1
    (by decide) (by decide)

/-! ### C2 — RemoveVideoFromCourse / Remove -/

/-- Filtering out an id that is not present keeps the list unchanged. -/
theorem filter_ne_of_not_mem {l : List ObjectID} {v : ObjectID} (h : v ∉ l) :
    l.filter (fun x => !(x == v)) = l := by
  apply List.filter_eq_self.mpr
  intro a ha
  have hne : a ≠ v := fun e => h (e ▸ ha)
  simp [hne]

/-- When `v` occurs exactly once, the repository's filter loop removes that
one occurrence: it agrees with `List.erase`. -/
theorem filter_ne_of_count_one :
    ∀ (l : List ObjectID) (v : ObjectID), l.count v = 1 →
      l.filter (fun x => !(x == v)) = l.erase v := by
  intro l v
  induction l with
  | nil => simp
  | cons a l ih =>
    intro h
    by_cases hav : a = v
    · subst hav
      have h0 : l.count a = 0 := by
        have := h
        simp [List.count_cons] at this
        omega
      have hnm : a ∉ l := List.count_eq_zero.mp h0
      simp [filter_ne_of_not_mem hnm]
    · have h1 : l.count v = 1 := by
        have := h
        simp [List.count_cons, hav] at this
        omega
      have herase : (a :: l).erase v = a :: l.erase v := by
        rw [List.erase_cons_tail]
        simp [hav]
      simp [herase, hav, ih h1]

/-- C2: `RemoveVideoFromCourse` on an existing course fails with `emptyList`
exactly when the stored `videoOrder` is empty; on a non-empty order that
contains `videoID` exactly once it succeeds and stores the (n-1)-element
sequence with that occurrence erased and every other id in its original
relative order; on a non-empty order not containing `videoID` it succeeds
and stores the order unchanged (no element filtered). An absent course
fails with `notFound`; error paths perform no write. -/
theorem remove_spec (store : CourseStore) (courseID videoID : ObjectID)
    (now : Nat) :
    (getByID store courseID = none →
      RemoveVideoFromCourse store courseID videoID now = .error .notFound) ∧
    (∀ course, getByID store courseID = some course →
      (RemoveVideoFromCourse store courseID videoID now = .error .emptyList ↔
        course.videoOrder = []) ∧
      (course.videoOrder.count videoID = 1 →
        ∃ store', RemoveVideoFromCourse store courseID videoID now = .ok store' ∧
          ∃ course', getByID store' courseID = some course' ∧
            course'.videoOrder = course.videoOrder.erase videoID ∧
            course'.videoOrder.length = course.videoOrder.length - 1) ∧
      (course.videoOrder ≠ [] → videoID ∉ course.videoOrder →
        ∃ store', RemoveVideoFromCourse store courseID videoID now = .ok store' ∧
          ∃ course', getByID store' courseID = some course' ∧
            course'.videoOrder = course.videoOrder)) := by
  refine ⟨fun h => by simp [RemoveVideoFromCourse, h], fun course hc => ⟨?_, ?_, ?_⟩⟩
  · by_cases hemp : course.videoOrder.length = 0
    · have : course.videoOrder = [] := List.length_eq_zero.mp hemp
      simp [RemoveVideoFromCourse, hc, hemp, this]
    · have : course.videoOrder ≠ [] := fun e => hemp (by simp [e])
      simp only [RemoveVideoFromCourse, hc]
      rw [if_neg hemp]
      simp [this]
  · intro hcount
    have hmem : videoID ∈ course.videoOrder := by
      have : 0 < course.videoOrder.count videoID := by omega
      exact List.count_pos_iff.mp this
    have hemp : ¬course.videoOrder.length = 0 := by
      intro h0
      rw [List.length_eq_zero.mp h0] at hmem
      exact absurd hmem (List.not_mem_nil _)
    by_cases hsing : course.videoOrder.length = 1 ∧
        course.videoOrder.head? = some videoID
    · -- the singleton special case: the Go code stores nil
      obtain ⟨h1, hh⟩ := hsing
      obtain ⟨a, ha⟩ := List.length_eq_one.mp h1
      have hav : a = videoID := by
        rw [ha] at hh
        simpa using hh
      refine ⟨setVideoOrder store courseID [] now, ?_, ?_⟩
      · simp only [RemoveVideoFromCourse, hc]
        rw [if_neg hemp, if_pos ⟨h1, hh⟩]
      · refine ⟨_, getByID_setVideoOrder_self courseID _ now store course hc, ?_, ?_⟩
        · simp [ha, hav]
        · simp [ha]
    · refine ⟨setVideoOrder store courseID
          (course.videoOrder.filter (fun v => !(v == videoID))) now, ?_, ?_⟩
      · simp only [RemoveVideoFromCourse, hc]
        rw [if_neg hemp, if_neg hsing]
      · refine ⟨_, getByID_setVideoOrder_self courseID _ now store course hc, ?_⟩
        refine ⟨filter_ne_of_count_one _ _ hcount, ?_⟩
        rw [filter_ne_of_count_one _ _ hcount]
        exact List.length_erase_of_mem hmem
  · intro hne hnm
    have hemp : ¬course.videoOrder.length = 0 := fun h0 => hne (List.length_eq_zero.mp h0)
    have hsing : ¬(course.videoOrder.length = 1 ∧
        course.videoOrder.head? = some videoID) := by
      rintro ⟨h1, hh⟩
      obtain ⟨a, ha⟩ := List.length_eq_one.mp h1
      rw [ha] at hh
      have : a = videoID := by simpa using hh
      exact hnm (by rw [ha, this]; exact List.mem_singleton_self _)
    refine ⟨setVideoOrder store courseID
        (course.videoOrder.filter (fun v => !(v == videoID))) now, ?_, ?_⟩
    · simp only [RemoveVideoFromCourse, hc]
      rw [if_neg hemp, if_neg hsing]
    · exact ⟨_, getByID_setVideoOrder_self courseID _ now store course hc,
        filter_ne_of_not_mem hnm⟩

/-- C2 witness: removing id 10 (present exactly once) from `[10, 20]`. -/
theorem remove_spec_witness :
    ∃ store', RemoveVideoFromCourse [demoCourse] 1 10 5 = .ok store' ∧
      ∃ course', getByID store' 1 = some course' ∧
        course'.videoOrder = demoCourse.videoOrder.erase 10 ∧
        course'.videoOrder.length = demoCourse.videoOrder.length - 1 :=
  ((remove_spec [demoCourse] 1 10 5).2 demoCourse (by decide)).2.1 (by decide)

/-! ### C3 — ReorderVideos / Reorder -/

/-- C3: for an existing course, `ReorderVideos` succeeds if and only if
every id of `newOrder` is a member of the current `videoOrder`; on success
the stored order becomes exactly `newOrder` (currently-present ids omitted
from `newOrder` are silently dropped), and whenever some id of `newOrder`
is not currently present it fails with `invalidVideoReference` and performs
no write. An absent course fails with `notFound`. -/
theorem reorder_spec (store : CourseStore) (courseID : ObjectID)
    (newOrder : List ObjectID) (now : Nat) :
    (getByID store courseID = none →
      ReorderVideos store courseID newOrder now = .error .notFound) ∧
    (∀ course, getByID store courseID = some course →
      ((∃ store', ReorderVideos store courseID newOrder now = .ok store') ↔
        ∀ v ∈ newOrder, v ∈ course.videoOrder) ∧
      ((∀ v ∈ newOrder, v ∈ course.videoOrder) →
        ∃ store', ReorderVideos store courseID newOrder now = .ok store' ∧
          ∃ course', getByID store' courseID = some course' ∧
            course'.videoOrder = newOrder) ∧
      ((∃ v ∈ newOrder, v ∉ course.videoOrder) →
        ReorderVideos store courseID newOrder now = .error .invalidVideoReference)) := by
  refine ⟨fun h => by simp [ReorderVideos, h], fun course hc => ⟨⟨?_, ?_⟩, ?_, ?_⟩⟩
  · rintro ⟨store', hok⟩
    by_cases hall : ∀ v ∈ newOrder, v ∈ course.videoOrder
    · exact hall
    · rw [ReorderVideos, hc] at hok
      simp only at hok
      rw [if_neg hall] at hok
      cases hok
  · intro hall
    refine ⟨setVideoOrder store courseID newOrder now, ?_⟩
    simp only [ReorderVideos, hc]
    rw [if_pos hall]
  · intro hall
    refine ⟨setVideoOrder store courseID newOrder now, ?_,
      _, getByID_setVideoOrder_self courseID _ now store course hc, rfl⟩
    simp only [ReorderVideos, hc]
    rw [if_pos hall]
  · rintro ⟨v, hv, hnm⟩
    have hall : ¬∀ w ∈ newOrder, w ∈ course.videoOrder := fun h => hnm (h v hv)
    simp only [ReorderVideos, hc]
    rw [if_neg hall]

/-- C3 witness: reordering `[10, 20]` to `[20, 10]`. -/
theorem reorder_spec_witness :
    ∃ store', ReorderVideos [demoCourse] 1 [20, 10] 5 = .ok store' ∧
      ∃ course', getByID store' 1 = some course' ∧
        course'.videoOrder = [20, 10] :=
  ((reorder_spec [demoCourse] 1 [20, 10] 5).2 demoCourse (by decide)).2.1 (by decide)

/-! ### C4 — GetVideosInOrder / Resolve -/

/-- When every id resolves, the lookup loop succeeds and returns, in order,
exactly the stored record of each id of the input list. -/
theorem resolveVideos_ok (videos : VideoStore) :
    ∀ order : List ObjectID, (∀ id ∈ order, (videoGetByID videos id).isSome) →
      ∃ vids, resolveVideos videos order = .ok vids ∧
        vids.map Video.id = order ∧
        ∀ v ∈ vids, videoGetByID videos v.id = some v := by
  intro order
  induction order with
  | nil => exact fun _ => ⟨[], rfl, rfl, by simp⟩
  | cons id rest ih =>
    intro h
    obtain ⟨v, hv⟩ := Option.isSome_iff_exists.mp (h id (List.mem_cons_self _ _))
    obtain ⟨vids, hok, hmap, hall⟩ := ih (fun i hi => h i (List.mem_cons_of_mem _ hi))
    have hid : v.id = id := by
      have := List.find?_some hv
      simpa using this
    refine ⟨v :: vids, ?_, ?_, ?_⟩
    · simp [resolveVideos, hv, hok]
    · simp [hmap, hid]
    · intro w hw
      rcases List.mem_cons.mp hw with rfl | hw'
      · rw [hid]; exact hv
      · exact hall w hw'

/-- When some id of the input list resolves to no stored video, the whole
loop fails with a dangling-video error (no partial result). -/
theorem resolveVideos_err (videos : VideoStore) :
    ∀ order : List ObjectID, (∃ id ∈ order, videoGetByID videos id = none) →
      ∃ id, id ∈ order ∧ videoGetByID videos id = none ∧
        resolveVideos videos order = .error (.danglingVideo id) := by
  intro order
  induction order with
  | nil => rintro ⟨id, h, -⟩; cases h
  | cons a rest ih =>
    rintro ⟨id, hmem, hnone⟩
    by_cases ha : videoGetByID videos a = none
    · exact ⟨a, List.mem_cons_self _ _, ha, by simp [resolveVideos, ha]⟩
    · obtain ⟨v, hv⟩ := Option.isSome_iff_exists.mp (Option.ne_none_iff_isSome.mp ha)
      have hrest : id ∈ rest := by
        rcases List.mem_cons.mp hmem with rfl | h'
        · exact absurd hnone ha
        · exact h'
      obtain ⟨id', h1, h2, h3⟩ := ih ⟨id, hrest, hnone⟩
      exact ⟨id', List.mem_cons_of_mem _ h1, h2, by simp [resolveVideos, hv, h3]⟩

/-- C4: for an existing course, `GetVideosInOrder` returns the stored video
records in exactly the order of `videoOrder` (the ids of the returned
records, read off in order, are exactly `videoOrder`, and each returned
record is the stored record of its id); an empty `videoOrder` yields `ok []`
and no error; and whenever some id of `videoOrder` resolves to no stored
video, the whole call fails with a dangling-video error, producing no
partial result. An absent course fails with `notFound`. -/
theorem resolve_spec (store : CourseStore) (videos : VideoStore)
    (courseID : ObjectID) :
    (getByID store courseID = none →
      GetVideosInOrder store videos courseID = .error .notFound) ∧
    (∀ course, getByID store courseID = some course →
      (course.videoOrder = [] → GetVideosInOrder store videos courseID = .ok []) ∧
      ((∀ id ∈ course.videoOrder, (videoGetByID videos id).isSome) →
        ∃ vids, GetVideosInOrder store videos courseID = .ok vids ∧
          vids.map Video.id = course.videoOrder ∧
          ∀ v ∈ vids, videoGetByID videos v.id = some v) ∧
      ((∃ id ∈ course.videoOrder, videoGetByID videos id = none) →
        ∃ id, id ∈ course.videoOrder ∧
          GetVideosInOrder store videos courseID = .error (.danglingVideo id))) := by
  refine ⟨fun h => by simp [GetVideosInOrder, h], fun course hc => ⟨?_, ?_, ?_⟩⟩
  · intro hnil
    simp [GetVideosInOrder, hc, hnil]
  · intro hall
    by_cases hemp : course.videoOrder.length = 0
    · refine ⟨[], ?_, ?_, by simp⟩
      · simp [GetVideosInOrder, hc, hemp]
      · simp [List.length_eq_zero.mp hemp]
    · obtain ⟨vids, hok, hmap, hres⟩ := resolveVideos_ok videos course.videoOrder hall
      refine ⟨vids, ?_, hmap, hres⟩
      simp only [GetVideosInOrder, hc]
      rw [if_neg hemp]
      exact hok
  · intro hex
    obtain ⟨id, hmem, hnone, herr⟩ := resolveVideos_err videos course.videoOrder hex
    have hemp : ¬course.videoOrder.length = 0 := by
      intro h0
      rw [List.length_eq_zero.mp h0] at hmem
      exact absurd hmem (List.not_mem_nil _)
    refine ⟨id, hmem, ?_⟩
    simp only [GetVideosInOrder, hc]
    rw [if_neg hemp]
    exact herr

/-- C4 witness: resolving `[10, 20]` against a store holding both videos. -/
theorem resolve_spec_witness :
    ∃ vids, GetVideosInOrder [demoCourse] demoVideos 1 = .ok vids ∧
      vids.map Video.id = demoCourse.videoOrder ∧
      ∀ v ∈ vids, videoGetByID demoVideos v.id = some v :=
  ((resolve_spec [demoCourse] demoVideos 1).2 demoCourse (by decide)).2.1 (by decide)

/-! ### C5 — uniqueness of `videoOrder` under the mutation operations -/

/-- C5 counterexample: `AddVideoToCourse` does not check whether the
inserted id is already present. Starting from the duplicate-free order
`[10, 20]`, inserting id 10 again at position 0 succeeds and stores
`[10, 10, 20]`, which contains id 10 twice — so uniqueness of `videoOrder`
is not an invariant of the mutation operations as claimed. -/
theorem nodup_invariant_cex :
    demoCourse.videoOrder.Nodup ∧
    AddVideoToCourse [demoCourse] 1 10 0 5 =
      .ok [{ demoCourse with videoOrder := [10, 10, 20], updatedAt := 5 }] ∧
    ¬ ([10, 10, 20] : List ObjectID).Nodup :=
  ⟨by decide, rfl, by decide⟩

/-- C5 (amended): a duplicate-free `videoOrder` stays duplicate-free under
`RemoveVideoFromCourse` unconditionally, under `AddVideoToCourse` provided
the inserted id is not already present (duplicate insertion is not rejected
and breaks uniqueness, see `nodup_invariant_cex`), and under `ReorderVideos`
provided the submitted `newOrder` itself contains no duplicate (the
membership check accepts an order that repeats a present id). -/
theorem nodup_invariant_amended (store : CourseStore)
    (courseID videoID : ObjectID) (newOrder : List ObjectID) (position : Int)
    (now : Nat) (course : Course) (hc : getByID store courseID = some course)
    (hnd : course.videoOrder.Nodup) :
    (∀ store', RemoveVideoFromCourse store courseID videoID now = .ok store' →
      ∀ course', getByID store' courseID = some course' →
        course'.videoOrder.Nodup) ∧
    (videoID ∉ course.videoOrder →
      ∀ store', AddVideoToCourse store courseID videoID position now = .ok store' →
        ∀ course', getByID store' courseID = some course' →
          course'.videoOrder.Nodup) ∧
    (newOrder.Nodup →
      ∀ store', ReorderVideos store courseID newOrder now = .ok store' →
        ∀ course', getByID store' courseID = some course' →
          course'.videoOrder.Nodup) := by
  refine ⟨?_, ?_, ?_⟩
  · intro store' hok course' hget
    simp only [RemoveVideoFromCourse, hc] at hok
    by_cases hemp : course.videoOrder.length = 0
    · rw [if_pos hemp] at hok
      exact Except.noConfusion hok
    · rw [if_neg hemp] at hok
      obtain rfl := Except.ok.inj hok
      rw [getByID_setVideoOrder_self courseID _ now store course hc] at hget
      obtain rfl := Option.some.inj hget
      show (if course.videoOrder.length = 1 ∧ course.videoOrder.head? = some videoID
          then ([] : List ObjectID)
          else course.videoOrder.filter (fun v => !(v == videoID))).Nodup
      split
      · exact List.nodup_nil
      · exact hnd.filter _
  · intro hvm store' hok course' hget
    simp only [AddVideoToCourse, hc] at hok
    by_cases hcond : position < 0 ∨ position > (course.videoOrder.length : Int)
    · rw [if_pos hcond] at hok
      exact Except.noConfusion hok
    · rw [if_neg hcond] at hok
      obtain rfl := Except.ok.inj hok
      rw [getByID_setVideoOrder_self courseID _ now store course hc] at hget
      obtain rfl := Option.some.inj hget
      show (course.videoOrder.take position.toNat ++
        videoID :: course.videoOrder.drop position.toNat).Nodup
      have hperm : (course.videoOrder.take position.toNat ++
          videoID :: course.videoOrder.drop position.toNat).Perm
            (videoID :: course.videoOrder) := by
        have := @List.perm_middle _ videoID
          (course.videoOrder.take position.toNat)
          (course.videoOrder.drop position.toNat)
        rwa [List.take_append_drop] at this
      exact hperm.nodup_iff.mpr (List.nodup_cons.mpr ⟨hvm, hnd⟩)
  · intro hnew store' hok course' hget
    simp only [ReorderVideos, hc] at hok
    by_cases hall : ∀ v ∈ newOrder, v ∈ course.videoOrder
    · rw [if_pos hall] at hok
      obtain rfl := Except.ok.inj hok
      rw [getByID_setVideoOrder_self courseID _ now store course hc] at hget
      obtain rfl := Option.some.inj hget
      exact hnew
    · rw [if_neg hall] at hok
      exact Except.noConfusion hok

/-- C5 witness: reordering `[10, 20]` to the duplicate-free `[20, 10]`
keeps the stored order duplicate-free. -/
theorem nodup_invariant_amended_witness :
    ([20, 10] : List ObjectID).Nodup :=
  (nodup_invariant_amended [demoCourse] 1 99 [20, 10] 0 5 demoCourse
      (by decide) (by decide)).2.2 (by decide)
    (setVideoOrder [demoCourse] 1 [20, 10] 5) rfl
    { demoCourse with videoOrder := [20, 10], updatedAt := 5 } (by decide)

/-! ### Helper lemmas about the users collection -/

/-- Reading the user just written: `updateSubscription` rewrites exactly
the document that `userGetByID` finds. -/
theorem userGetByID_updateSubscription_self (userID : ObjectID)
    (s : Subscription) (now : Nat) :
    ∀ (users : List User) (u : User), userGetByID users userID = some u →
      userGetByID (updateSubscription users userID s now) userID =
        some { u with subscription := s, updatedAt := now } := by
  intro users
  induction users with
  | nil => intro u h; simp [userGetByID] at h
  | cons u0 rest ih =>
    intro u h
    by_cases h0 : u0.id = userID
    · have hu : u0 = u := by
        simpa [userGetByID, List.find?_cons_of_pos, h0] using h
      subst hu
      simp [userGetByID, updateSubscription, h0, List.find?_cons_of_pos]
    · have hne : ¬(u0.id == userID) = true := by simpa using h0
      have h' : userGetByID rest userID = some u := by
        simpa [userGetByID, List.find?_cons_of_neg, hne] using h
      have hrec := ih u h'
      simpa [userGetByID, updateSubscription, h0, List.find?_cons_of_neg, hne]
        using hrec

/-- Whatever `userGetByID` finds under the just-written id carries exactly
the written subscription document. -/
theorem userGetByID_updateSubscription_subscription (userID : ObjectID)
    (s : Subscription) (now : Nat) :
    ∀ (users : List User) (u' : User),
      userGetByID (updateSubscription users userID s now) userID = some u' →
        u'.subscription = s := by
  intro users
  induction users with
  | nil => intro u' h; simp [userGetByID, updateSubscription] at h
  | cons u0 rest ih =>
    intro u' h
    by_cases h0 : u0.id = userID
    · have : ({ u0 with subscription := s, updatedAt := now } : User) = u' := by
        simpa [userGetByID, updateSubscription, h0, List.find?_cons_of_pos] using h
      rw [← this]
    · have hne : ¬(u0.id == userID) = true := by simpa using h0
      have h' : userGetByID (updateSubscription rest userID s now) userID = some u' := by
        simpa [userGetByID, updateSubscription, h0, List.find?_cons_of_neg, hne] using h
      exact ih u' h'

/-- Users other than the just-written one read back unchanged. -/
theorem userGetByID_updateSubscription_other (userID id2 : ObjectID)
    (hne : id2 ≠ userID) (s : Subscription) (now : Nat) :
    ∀ users : List User,
      userGetByID (updateSubscription users userID s now) id2 =
        userGetByID users id2 := by
  intro users
  induction users with
  | nil => rfl
  | cons u0 rest ih =>
    by_cases h0 : u0.id = userID
    · simp [userGetByID, updateSubscription, h0, Ne.symm hne]
    · by_cases h2 : u0.id = id2
      · simp [userGetByID, updateSubscription, h0, h2, hne]
      · simpa [userGetByID, updateSubscription, h0, h2] using ih

/-- Re-writing the same subscription document leaves every user's stored
`(id, subscription)` pair as it was after the first write (only the
`updated_at` stamp can differ). -/
theorem updateSubscription_idem (userID : ObjectID) (s : Subscription)
    (now now2 : Nat) :
    ∀ users : List User,
      (updateSubscription (updateSubscription users userID s now) userID s now2).map
          (fun u => (u.id, u.subscription)) =
        (updateSubscription users userID s now).map
          (fun u => (u.id, u.subscription)) := by
  intro users
  induction users with
  | nil => rfl
  | cons u0 rest ih =>
    by_cases h0 : u0.id = userID
    · simp [updateSubscription, h0]
    · simp only [updateSubscription, beq_iff_eq, h0, if_false, List.map_cons]
      rw [ih]

/-! ### C6 — replaying `customer.subscription.updated` is idempotent -/

/-- C6: if a `customer.subscription.updated` event is handled successfully,
handling the identical event a second time (at any later instant) succeeds
again and leaves every user's stored subscription state — the
`(id, subscription)` content of the users collection — and the payments
ledger exactly as after the first application. -/
theorem subscription_update_idempotent (st : WebhookState)
    (sub : StripeSubscription) (now now2 : Nat) (st1 : WebhookState)
    (h1 : handleStripeWebhook st (.customerSubscriptionUpdated sub) now = .ok st1) :
    ∃ st2, handleStripeWebhook st1 (.customerSubscriptionUpdated sub) now2 = .ok st2 ∧
      st2.users.map (fun u => (u.id, u.subscription)) =
        st1.users.map (fun u => (u.id, u.subscription)) ∧
      st2.payments = st1.payments := by
  cases hu : sub.userID with
  | none => rw [handleStripeWebhook, hu] at h1; exact Except.noConfusion h1
  | some uid =>
    cases hi : sub.items[0]? with
    | none =>
      rw [handleStripeWebhook, hu] at h1
      simp only [hi] at h1
      exact Except.noConfusion h1
    | some item =>
      rw [handleStripeWebhook, hu] at h1
      simp only [hi] at h1
      obtain rfl := Except.ok.inj h1
      exact
        let s : Subscription :=
          { zeroSubscription with
              status := sub.status,
              plan := item.price.recurring.interval,
              currentPeriodEnd := sub.currentPeriodEnd }
        ⟨⟨updateSubscription (updateSubscription st.users uid s now) uid s now2,
            st.payments⟩,
          by rw [handleStripeWebhook, hu]; simp only [hi],
          updateSubscription_idem uid s now now2 st.users, rfl⟩

/-- C6 witness: replaying `demoStripeSub` on the state it produced. -/
theorem subscription_update_idempotent_witness :
    ∃ st2, handleStripeWebhook demoState1
        (.customerSubscriptionUpdated demoStripeSub) 4 = .ok st2 ∧
      st2.users.map (fun u => (u.id, u.subscription)) =
        demoState1.users.map (fun u => (u.id, u.subscription)) ∧
      st2.payments = demoState1.payments :=
  subscription_update_idempotent demoState demoStripeSub 3 4 demoState1 rfl

/-! ### C7 — checkout.session.completed creates a payment record -/

/-- C7: for a `checkout.session.completed` event whose customer metadata
`user_id` resolves, the handler appends exactly one new payment record —
carrying that user id, the event's amount and currency, gateway "stripe"
and status "completed" — and leaves the users collection (hence all
subscription state) untouched; a second delivery of the identical event
appends a second record (no deduplication), growing the ledger by two. -/
theorem checkout_creates_payment (st : WebhookState)
    (session : StripeCheckoutSession) (uid : ObjectID) (now now2 : Nat)
    (h : session.userID = some uid) :
    ∃ st1, handleStripeWebhook st (.checkoutSessionCompleted session) now = .ok st1 ∧
      st1.users = st.users ∧
      (∃ p, st1.payments = st.payments ++ [p] ∧ p.userID = uid ∧
        p.amount = session.amountTotal ∧ p.currency = session.currency ∧
        p.status = "completed" ∧ p.gateway = "stripe") ∧
      ∃ st2, handleStripeWebhook st1 (.checkoutSessionCompleted session) now2 = .ok st2 ∧
        st2.users = st.users ∧
        st2.payments.length = st.payments.length + 2 ∧
        ∃ p2, st2.payments = st1.payments ++ [p2] ∧ p2.userID = uid ∧
          p2.amount = session.amountTotal ∧ p2.currency = session.currency ∧
          p2.status = "completed" := by
  refine ⟨⟨st.users, st.payments ++ [checkoutPayment session uid now]⟩,
    ?_, rfl, ?_, ?_⟩
  · simp only [handleStripeWebhook, h, paymentCreate, checkoutPayment]
  · exact ⟨checkoutPayment session uid now, rfl, rfl, rfl, rfl, rfl, rfl⟩
  · refine ⟨⟨st.users, (st.payments ++ [checkoutPayment session uid now]) ++
        [checkoutPayment session uid now2]⟩, ?_, rfl, ?_, ?_⟩
    · simp only [handleStripeWebhook, h, paymentCreate, checkoutPayment]
    · simp [List.length_append]
    · exact ⟨checkoutPayment session uid now2, rfl, rfl, rfl, rfl, rfl⟩

/-- C7 witness: delivering `demoSession` twice to the demo store. -/
theorem checkout_creates_payment_witness :
    ∃ st1, handleStripeWebhook demoState (.checkoutSessionCompleted demoSession) 3 =
        .ok st1 ∧
      st1.users = demoState.users ∧
      (∃ p, st1.payments = demoState.payments ++ [p] ∧ p.userID = 7 ∧
        p.amount = 1999 ∧ p.currency = "usd" ∧
        p.status = "completed" ∧ p.gateway = "stripe") ∧
      ∃ st2, handleStripeWebhook st1 (.checkoutSessionCompleted demoSession) 4 =
          .ok st2 ∧
        st2.users = demoState.users ∧
        st2.payments.length = demoState.payments.length + 2 ∧
        ∃ p2, st2.payments = st1.payments ++ [p2] ∧ p2.userID = 7 ∧
          p2.amount = 1999 ∧ p2.currency = "usd" ∧ p2.status = "completed" :=
  checkout_creates_payment demoState demoSession 7 3 4 rfl

/-! ### C8 — what the subscription-update transition does to the stored
subscription document -/

/-- C8 counterexample: `UpdateSubscription` replaces the whole embedded
subscription document with the freshly-built literal, so the
provider-linkage fields are NOT unchanged: `paymentMethodID` goes from
"pm_1" to "", `autoRenew` and `cancelAtPeriodEnd` from `true` to `false`. -/
theorem subscription_update_frame_cex :
    linkedUser.subscription.paymentMethodID = "pm_1" ∧
    linkedUser.subscription.autoRenew = true ∧
    linkedUser.subscription.cancelAtPeriodEnd = true ∧
    handleStripeWebhook linkedState (.customerSubscriptionUpdated demoStripeSub) 3 =
      .ok { users := [{ linkedUser with
              subscription := { zeroSubscription with
                  status := "active",
                  plan := "month",
                  currentPeriodEnd := 100 },
              updatedAt := 3 }],
            payments := [] } ∧
    ({ zeroSubscription with
        status := "active",
        plan := "month",
        currentPeriodEnd := 100 } : Subscription).paymentMethodID = "" ∧
    ({ zeroSubscription with
        status := "active",
        plan := "month",
        currentPeriodEnd := 100 } : Subscription).autoRenew = false ∧
    ("pm_1" : String) ≠ "" :=
  ⟨rfl, rfl, rfl, rfl, rfl, rfl, by decide⟩

/-- C8 (amended): the transition does not modify three fields and preserve
the rest — it overwrites the user's entire embedded subscription document:
`status`, `plan` and `currentPeriodEnd` are taken from the event and every
other subscription field is reset to its zero value (so the
provider-linkage fields `autoRenew`, `paymentMethodID`, `customerID`,
`subscriptionID` and `cancelAtPeriodEnd` are clobbered, see
`subscription_update_frame_cex`). Other users' documents and the payments
ledger are unchanged. -/
theorem subscription_update_overwrite_amended (st : WebhookState)
    (sub : StripeSubscription) (uid : ObjectID) (item : StripeSubscriptionItem)
    (now : Nat) (hu : sub.userID = some uid) (hi : sub.items[0]? = some item) :
    ∃ st1, handleStripeWebhook st (.customerSubscriptionUpdated sub) now = .ok st1 ∧
      st1.payments = st.payments ∧
      (∀ u, userGetByID st.users uid = some u →
        userGetByID st1.users uid = some { u with
          subscription := { zeroSubscription with
              status := sub.status,
              plan := item.price.recurring.interval,
              currentPeriodEnd := sub.currentPeriodEnd },
          updatedAt := now }) ∧
      (∀ id2, id2 ≠ uid → userGetByID st1.users id2 = userGetByID st.users id2) := by
  refine ⟨⟨updateSubscription st.users uid
      { zeroSubscription with
          status := sub.status,
          plan := item.price.recurring.interval,
          currentPeriodEnd := sub.currentPeriodEnd } now, st.payments⟩,
    ?_, rfl, ?_, ?_⟩
  · simp only [handleStripeWebhook, hu, hi]
  · intro u hu'
    exact userGetByID_updateSubscription_self uid _ now st.users u hu'
  · intro id2 hne
    exact userGetByID_updateSubscription_other uid id2 hne _ now st.users

/-- C8 witness: applying `demoStripeSub` to the linked store. -/
theorem subscription_update_overwrite_amended_witness :
    ∃ st1, handleStripeWebhook linkedState
        (.customerSubscriptionUpdated demoStripeSub) 3 = .ok st1 ∧
      st1.payments = linkedState.payments ∧
      (∀ u, userGetByID linkedState.users 7 = some u →
        userGetByID st1.users 7 = some { u with
          subscription := { zeroSubscription with
              status := "active",
              plan := "month",
              currentPeriodEnd := 100 },
          updatedAt := 3 }) ∧
      (∀ id2, id2 ≠ 7 → userGetByID st1.users id2 = userGetByID linkedState.users id2) :=
  subscription_update_overwrite_amended linkedState demoStripeSub 7
    { price := { recurring := { interval := "month" } } } 3 rfl rfl

/-! ### C9 — the stored status after a reconciler transition -/

/-- C9 counterexample: `customer.subscription.updated` stores the provider
status string verbatim, so a "past_due" event leaves the stored status
"past_due", which is none of `active`, `trial`, `canceled`, `expired`. -/
theorem subscription_status_cex :
    handleStripeWebhook demoState (.customerSubscriptionUpdated pastDueStripeSub) 3 =
      .ok { users := [{ demoUser with
              subscription := { zeroSubscription with
                  status := "past_due",
                  plan := "month",
                  currentPeriodEnd := 100 },
              updatedAt := 3 }],
            payments := [] } ∧
    ¬ (("past_due" : String) = "active" ∨ ("past_due" : String) = "trial" ∨
       ("past_due" : String) = "canceled" ∨ ("past_due" : String) = "expired") :=
  ⟨rfl, by decide⟩

/-- C9 (amended): after a successful `customer.subscription.deleted`
transition the stored status is the literal "canceled" (which is in the
four-value set); after a successful `customer.subscription.updated`
transition the stored status equals the provider's status string verbatim —
no mapping onto `active | trial | canceled | expired` takes place, so the
invariant holds only when the provider string itself lies in that set (see
`subscription_status_cex`). -/
theorem subscription_status_amended (st : WebhookState)
    (sub : StripeSubscription) (uid : ObjectID) (now : Nat)
    (hu : sub.userID = some uid) :
    (∀ st1, handleStripeWebhook st (.customerSubscriptionUpdated sub) now = .ok st1 →
      ∀ u', userGetByID st1.users uid = some u' →
        u'.subscription.status = sub.status) ∧
    (∀ st1, handleStripeWebhook st (.customerSubscriptionDeleted sub) now = .ok st1 →
      ∀ u', userGetByID st1.users uid = some u' →
        u'.subscription.status = "canceled" ∧
        (u'.subscription.status = "active" ∨ u'.subscription.status = "trial" ∨
         u'.subscription.status = "canceled" ∨ u'.subscription.status = "expired")) := by
  constructor
  · intro st1 hok u' hget
    cases hi : sub.items[0]? with
    | none =>
      rw [handleStripeWebhook, hu] at hok
      simp only [hi] at hok
      exact Except.noConfusion hok
    | some item =>
      rw [handleStripeWebhook, hu] at hok
      simp only [hi] at hok
      obtain rfl := Except.ok.inj hok
      have hs := userGetByID_updateSubscription_subscription uid _ now st.users u' hget
      rw [hs]
  · intro st1 hok u' hget
    cases hi : sub.items[0]? with
    | none =>
      rw [handleStripeWebhook, hu] at hok
      simp only [hi] at hok
      exact Except.noConfusion hok
    | some item =>
      rw [handleStripeWebhook, hu] at hok
      simp only [hi] at hok
      obtain rfl := Except.ok.inj hok
      have hs := userGetByID_updateSubscription_subscription uid _ now st.users u' hget
      rw [hs]
      exact ⟨rfl, Or.inr (Or.inr (Or.inl rfl))⟩

/-- C9 witness: a deleted-event transition on the demo store. -/
theorem subscription_status_amended_witness :
    ("canceled" : String) = "canceled" ∧
    (("canceled" : String) = "active" ∨ ("canceled" : String) = "trial" ∨
     ("canceled" : String) = "canceled" ∨ ("canceled" : String) = "expired") :=
  (subscription_status_amended demoState demoStripeSub 7 3 rfl).2
    { users := [{ demoUser with
        subscription := { zeroSubscription with
            status := "canceled",
            plan := "month",
            currentPeriodEnd := 100 },
        updatedAt := 3 }],
      payments := [] } rfl
    { demoUser with
      subscription := { zeroSubscription with
          status := "canceled",
          plan := "month",
          currentPeriodEnd := 100 },
      updatedAt := 3 } rfl

/-! ### C10 — the first-billing-item access on an empty item list -/

/-- C10: for a subscription event whose `user_id` resolves, the access
`sub.Items.Data[0]` that derives the plan is out of bounds exactly on an
empty billing-item list: with no items both subscription branches abort
with the `emptyItems` error (in Go, an index-out-of-range panic), and with
at least one item that error is unreachable. -/
theorem items_index_oob (st : WebhookState) (sub : StripeSubscription)
    (uid : ObjectID) (now : Nat) (hu : sub.userID = some uid) :
    (sub.items = [] →
      handleStripeWebhook st (.customerSubscriptionUpdated sub) now =
        .error .emptyItems ∧
      handleStripeWebhook st (.customerSubscriptionDeleted sub) now =
        .error .emptyItems) ∧
    (sub.items ≠ [] →
      handleStripeWebhook st (.customerSubscriptionUpdated sub) now ≠
        .error .emptyItems ∧
      handleStripeWebhook st (.customerSubscriptionDeleted sub) now ≠
        .error .emptyItems) := by
  constructor
  · intro hnil
    have hi : sub.items[0]? = none := by simp [hnil]
    constructor
    · rw [handleStripeWebhook, hu]
      simp only [hi]
    · rw [handleStripeWebhook, hu]
      simp only [hi]
  · intro hne
    obtain ⟨a, t, ha⟩ := List.exists_cons_of_ne_nil hne
    have hi : sub.items[0]? = some a := by simp [ha]
    constructor
    · rw [handleStripeWebhook, hu]
      simp only [hi]
      intro h
      exact Except.noConfusion h
    · rw [handleStripeWebhook, hu]
      simp only [hi]
      intro h
      exact Except.noConfusion h

/-- C10 witness: a no-items payload aborts both subscription branches. -/
theorem items_index_oob_witness :
    handleStripeWebhook demoState
        (.customerSubscriptionUpdated emptyItemsStripeSub) 3 =
      .error .emptyItems ∧
    handleStripeWebhook demoState
        (.customerSubscriptionDeleted emptyItemsStripeSub) 3 =
      .error .emptyItems :=
  (items_index_oob demoState emptyItemsStripeSub 7 3 rfl).1 rfl

end CourseSite
